import Mathlib

/-!
Verification of the `coquilib` command-line option parser (`src/cli/cli.h`),
shallowly embedded in Lean 4.  The C++ code mutates caller-owned variables
through void pointers; here each `Opt` record carries its own value slot and
every operation returns the updated state explicitly.  The `int` results of
`applyOption` and `handleOption` (−1 error, otherwise number of extra tokens
consumed) are kept as `Int`.
-/

namespace cli

/-- Mirrors `Option::Type` from `cli.h` (the name `Option` itself clashes with
Lean core, so the struct is called `Opt` here). -/
inductive OptType where
  | Flag
  | FlagCount
  | Int
  | Float
  | String
  | Path
  | PathExisting
deriving DecidableEq, Repr

/-- The content of the caller-owned slot an option binds to.  The C++ code
stores it behind `void* valuePointer`; the variant corresponds to the declared
option kind.  A float slot records the accepted literal (`atof`'s machine
floating-point conversion is out of scope); `none` in `float`/`str` stands for
the caller's initial value respectively a NULL `const char*`. -/
inductive Value where
  | bool (b : Bool)
  | int (n : Int)
  | float (lit : Option String)
  | str (s : Option String)
deriving DecidableEq, Repr

/-- Mirrors `opt.as<int>()++` in the FlagCount branch of `applyOption`.  The
slot of a FlagCount option is an `int` by construction (via the
`OptionFlagCount` builder); reading a slot of the wrong variant is undefined
behaviour in the C++ and is left as the identity here. -/
def Value.incr : Value → Value
  | .int n => .int (n + 1)
  | v => v

/-- Mirrors `struct Option` of `cli.h`: kind tag, names, description, the
`isRequired` and `isSet` flags, and the bound slot (in place of
`valuePointer`). -/
structure Opt where
  type : OptType
  shortName : Char
  longName : String
  description : String
  isRequired : Bool
  isSet : Bool
  value : Value
deriving DecidableEq, Repr

/-- Mirrors `Option::requiresParameter`. -/
def Opt.requiresParameter (o : Opt) : Bool :=
  o.type != OptType.Flag && o.type != OptType.FlagCount

/-- Mirrors the `opt.as<const char*>()` read that `validatePathOptions`
performs on a PathExisting slot; a slot of the wrong variant is a caller type
error (undefined behaviour in the C++), mapped to `none`. -/
def Opt.pathString (o : Opt) : Option String :=
  match o.value with
  | .str s => s
  | _ => none

/-- Mirrors the convenience builder `OptionFlag`; the last argument is the
initial content of the caller variable the C++ takes by pointer. -/
def OptionFlag (shortName : Char) (longName description : String) (v : Bool) : Opt :=
  ⟨OptType.Flag, shortName, longName, description, false, false, Value.bool v⟩

/-- Mirrors the convenience builder `OptionFlagCount`. -/
def OptionFlagCount (shortName : Char) (longName description : String) (v : Int) : Opt :=
  ⟨OptType.FlagCount, shortName, longName, description, false, false, Value.int v⟩

/-- Mirrors the convenience builder `OptionInt`. -/
def OptionInt (shortName : Char) (longName description : String) (required : Bool)
    (v : Int) : Opt :=
  ⟨OptType.Int, shortName, longName, description, required, false, Value.int v⟩

/-- Mirrors the convenience builder `OptionFloat`; the caller's initial
machine float is not representable here, so the slot starts at `none`. -/
def OptionFloat (shortName : Char) (longName description : String) (required : Bool) : Opt :=
  ⟨OptType.Float, shortName, longName, description, required, false, Value.float none⟩

/-- Mirrors the convenience builder `OptionString`. -/
def OptionString (shortName : Char) (longName description : String) (required : Bool)
    (v : Option String) : Opt :=
  ⟨OptType.String, shortName, longName, description, required, false, Value.str v⟩

/-- Mirrors the convenience builder `OptionPath`. -/
def OptionPath (shortName : Char) (longName description : String) (required : Bool)
    (v : Option String) : Opt :=
  ⟨OptType.Path, shortName, longName, description, required, false, Value.str v⟩

/-- Mirrors the convenience builder `OptionPathExisting`. -/
def OptionPathExisting (shortName : Char) (longName description : String) (required : Bool)
    (v : Option String) : Opt :=
  ⟨OptType.PathExisting, shortName, longName, description, required, false, Value.str v⟩

/-- Mirrors the loop body of `Parser::isNumeric`: `i` is the loop index, `fp`
the (locally mutable) `floatingPoint` argument, `be`/`fd` the `beginExponent`
and `foundDecimal` locals.  In the `'e'/'E'` branch the C++ assigns
`beginExponent = true; floatingPoint = false;` and then falls through to
`return false` unconditionally; the dead stores are omitted. -/
def isNumericGo (fp be fd : Bool) (i : Nat) : List Char → Bool
  | [] => true
  | c :: cs =>
    if c.isDigit then
      isNumericGo fp be fd (i + 1) cs
    else if c = '-' ∨ c = '+' then
      if i = 0 ∨ (fp ∧ be) then isNumericGo fp be fd (i + 1) cs else false
    else if c = '.' then
      if fp ∧ fd = false then isNumericGo fp be true (i + 1) cs else false
    else if c = 'e' ∨ c = 'E' then
      false
    else
      false

/-- Mirrors `Parser::isNumeric(const char* str, bool floatingPoint)`. -/
def isNumeric (str : String) (floatingPoint : Bool) : Bool :=
  isNumericGo floatingPoint false false 0 str.data

/-- Models the C library `atoi` on the strings the parser hands it (tokens
that passed `isNumeric _ false`, which contain no whitespace): an optional
single leading sign followed by the value of the leading run of digits, `0`
when there are none.  `int` overflow is not modelled. -/
def digitsValue (cs : List Char) : Int :=
  (cs.takeWhile Char.isDigit).foldl (fun acc c => acc * 10 + (Int.ofNat (c.toNat - 48))) 0

/-- Models `atoi` (see `digitsValue`). -/
def atoi (s : String) : Int :=
  match s.data with
  | '-' :: cs => - digitsValue cs
  | '+' :: cs => digitsValue cs
  | cs => digitsValue cs

/-- Mirrors `Parser::applyOption(Option& opt, int argc, const char** argv)`.
`param` is `argv[1]` when `argc ≥ 2` (the token after the one being handled)
and `none` otherwise.  Returns the C++ `int` result (−1 error, else the number
of consumed parameter tokens) together with the updated option.  The arms
matching a parameter kind against `none` are unreachable: the
`requiresParameter` guard has already returned −1. -/
def applyOption (opt : Opt) (param : Option String) : Int × Opt :=
  if opt.type != OptType.FlagCount && opt.isSet then (-1, opt)
  else
    let opt1 : Opt := { opt with isSet := true }
    if opt1.requiresParameter && param.isNone then (-1, opt1)
    else
      match opt1.type, param with
      | OptType.Flag, _ => (0, { opt1 with value := Value.bool true })
      | OptType.FlagCount, _ => (0, { opt1 with value := opt1.value.incr })
      | OptType.Int, some p =>
          if isNumeric p false then (1, { opt1 with value := Value.int (atoi p) })
          else (-1, opt1)
      | OptType.Float, some p =>
          if isNumeric p true then (1, { opt1 with value := Value.float (some p) })
          else (-1, opt1)
      | OptType.String, some p => (1, { opt1 with value := Value.str (some p) })
      | OptType.Path, some p => (1, { opt1 with value := Value.str (some p) })
      | OptType.PathExisting, some p => (1, { opt1 with value := Value.str (some p) })
      | _, none => (-1, opt1)

/-- Encodes the control flow of the inner `for(Option& opt : options)` loop in
the short-option branch of `handleOption`: `ret r opts` is an early
`return r` out of `handleOption`, `cont handled opts` is normal loop exit with
the final value of the `handled` local; both carry the option-list state. -/
inductive InnerRes where
  | ret (r : Int) (opts : List Opt)
  | cont (handled : Bool) (opts : List Opt)
deriving DecidableEq, Repr

/-- Mirrors one run of the inner option loop of `handleOption` for the cluster
character `c`; `isLast` says whether `c` is the last character of the cluster
(`i == strlen(arg) - 1`), `param` is the following whole token, `handled` the
current value of the `handled` local. -/
def scanOptsForChar (c : Char) (isLast : Bool) (param : Option String) :
    List Opt → Bool → InnerRes
  | [], handled => InnerRes.cont handled []
  | opt :: rest, handled =>
    if opt.shortName = c then
      if opt.requiresParameter && !isLast then InnerRes.ret (-1) (opt :: rest)
      else
        let res := applyOption opt param
        if res.1 != 0 then InnerRes.ret res.1 (res.2 :: rest)
        else
          match scanOptsForChar c isLast param rest true with
          | InnerRes.ret r os => InnerRes.ret r (res.2 :: os)
          | InnerRes.cont h os => InnerRes.cont h (res.2 :: os)
    else
      match scanOptsForChar c isLast param rest handled with
      | InnerRes.ret r os => InnerRes.ret r (opt :: os)
      | InnerRes.cont h os => InnerRes.cont h (opt :: os)

/-- Mirrors the outer `for(int i = 1; i < strlen(arg); ++i)` loop of the
short-option branch of `handleOption`, iterating over the characters of the
cluster after the leading `-`: an unknown character (`!handled`) returns −1,
otherwise the loop runs to completion and `handleOption` returns 0. -/
def handleCluster (param : Option String) : List Char → List Opt → Int × List Opt
  | [], opts => (0, opts)
  | c :: cs, opts =>
    match scanOptsForChar c cs.isEmpty param opts false with
    | InnerRes.ret r os => (r, os)
    | InnerRes.cont handled os =>
      if handled then handleCluster param cs os else (-1, os)

/-- Mirrors the long-option branch of `handleOption`: scan the options for an
exact `longName` match of `arg+2`, apply the first match and return its
result; `none` when no option matches (the "unknown option" case). -/
def findLong (name : String) (param : Option String) :
    List Opt → Option (Int × List Opt)
  | [] => none
  | opt :: rest =>
    if opt.longName = name then
      let res := applyOption opt param
      some (res.1, res.2 :: rest)
    else
      match findLong name param rest with
      | some res => some (res.1, opt :: res.2)
      | none => none

/-- Mirrors the condition deciding the `else` (positional) branch of
`handleOption`: the token is positional unless `strlen(arg) > 1` and
`arg[0] == '-'`. -/
def isPositionalTok (s : String) : Bool :=
  match s.data with
  | '-' :: _ :: _ => false
  | _ => true

/-- Mirrors `Parser::handleOption(int argc, const char** argv)`: `args` is the
slice `argv[0..argc)` starting at the token being handled, `remaining` the
parser's `remaining` vector.  Returns the C++ `int` result together with the
updated options and remaining list. -/
def handleOption (opts : List Opt) (remaining : List String) (args : List String) :
    Int × List Opt × List String :=
  match args with
  | [] => (0, opts, remaining)
  | arg :: rest =>
    match arg.data with
    | '-' :: c2 :: cs =>
      if c2 = '-' then
        match findLong (String.mk cs) rest.head? opts with
        | some res => (res.1, res.2, remaining)
        | none => (-1, opts, remaining)
      else
        let res := handleCluster rest.head? (c2 :: cs) opts
        (res.1, res.2, remaining)
    | _ => (0, opts, remaining ++ [arg])

/-- Mirrors the scanning loop of `Parser::parse`: handle the token at the
front, stop with `false` on a negative result, otherwise skip the consumed
parameter tokens (`i += result`).  The option and remaining-list state at the
point of failure is returned as well, since the C++ performs no rollback. -/
def parseLoop : List String → List Opt → List String → Bool × List Opt × List String
  | [], opts, rem => (true, opts, rem)
  | arg :: rest, opts, rem =>
    let res := handleOption opts rem (arg :: rest)
    if res.1 < 0 then (false, res.2.1, res.2.2)
    else parseLoop (rest.drop res.1.toNat) res.2.1 res.2.2
termination_by args _ _ => args.length
decreasing_by
  simp [List.length_drop]
  omega

/-- Mirrors the required-option loop at the end of `Parser::parse`: the first
option in declaration order with `isRequired && !isSet`, which is the one the
C++ reports before returning `false`; `none` when the check passes. -/
def firstMissingRequired : List Opt → Option Opt
  | [] => none
  | opt :: rest =>
    if opt.isRequired && !opt.isSet then some opt else firstMissingRequired rest

/-- Mirrors `Parser::parse(int argc, const char* argv[])`: `argv` includes the
program name at index 0 (stored as `executableName` in the C++, otherwise
ignored).  Returns the overall result together with the final option state and
remaining-argument list. -/
def parse (opts : List Opt) (argv : List String) : Bool × List Opt × List String :=
  let scanned := parseLoop (argv.drop 1) opts []
  if !scanned.1 then scanned
  else
    match firstMissingRequired scanned.2.1 with
    | some _ => (false, scanned.2.1, scanned.2.2)
    | none => (true, scanned.2.1, scanned.2.2)

/-- Mirrors `Parser::checkExistsReadable(const char* path)`: the
`fopen(path, "rb")` probe is the only interaction with the operating system,
modelled by the oracle `fs` (`true` = the open succeeds). -/
def checkExistsReadable (fs : Option String → Bool) (path : Option String) : Bool :=
  fs path

/-- Mirrors the loop of `Parser::validatePathOptions` with `valid` the
accumulator local: a failed PathExisting check sets it to `false` and the loop
keeps going. -/
def validatePathOptionsLoop (fs : Option String → Bool) :
    List Opt → Bool → Bool
  | [], valid => valid
  | opt :: rest, valid =>
    if opt.type == OptType.PathExisting && !checkExistsReadable fs opt.pathString then
      validatePathOptionsLoop fs rest false
    else
      validatePathOptionsLoop fs rest valid

/-- Mirrors `Parser::validatePathOptions` (which starts with `valid = true`). -/
def validatePathOptions (fs : Option String → Bool) (opts : List Opt) : Bool :=
  validatePathOptionsLoop fs opts true

/-- Amended integer-literal grammar, written from the corrected spec wording:
every character is an ASCII digit, except that the first character may instead
be a single `+` or `-`; zero digits are allowed, so the empty string and a
bare sign pass. -/
def intLiteralRelaxed (cs : List Char) : Bool :=
  match cs with
  | [] => true
  | c :: rest => (c.isDigit || c = '+' || c = '-') && rest.all Char.isDigit

/-- Proof helper: prepend untouched options in front of the state carried by
an `InnerRes`. -/
def InnerRes.prependOpts (pre : List Opt) : InnerRes → InnerRes
  | InnerRes.ret r os => InnerRes.ret r (pre ++ os)
  | InnerRes.cont h os => InnerRes.cont h (pre ++ os)

lemma isNumericGo_int_tail (cs : List Char) (be fd : Bool) (i : Nat) (hi : i ≠ 0) :
    isNumericGo false be fd i cs = cs.all Char.isDigit := by
  induction cs generalizing be fd i with
  | nil => simp [isNumericGo]
  | cons c rest ih =>
    by_cases hd : c.isDigit
    · simp [isNumericGo, hd, ih be fd (i + 1) (Nat.succ_ne_zero i)]
    · by_cases hs : c = '-' ∨ c = '+'
      · simp [isNumericGo, hd, hs, hi, List.all_cons]
      · by_cases hp : c = '.'
        · simp [isNumericGo, hd, hs, hp, List.all_cons]
        · by_cases he : c = 'e' ∨ c = 'E'
          · simp [isNumericGo, hd, hs, hp, he, List.all_cons]
          · simp [isNumericGo, hd, hs, hp, he, List.all_cons]

/-- C2 (amended part): the integer-mode numeric check accepts exactly the
strings in which every character is a digit, except that the first character
may be a `+` or `-` sign; in particular the empty string and a bare sign are
accepted. -/
theorem C2_isNumeric_int_characterisation (s : String) :
    isNumeric s false = intLiteralRelaxed s.data := by
  unfold isNumeric intLiteralRelaxed
  cases s.data with
  | nil => simp [isNumericGo]
  | cons c rest =>
    by_cases hd : c.isDigit
    · simp [isNumericGo, hd, isNumericGo_int_tail rest false false 1 one_ne_zero]
    · by_cases hs : c = '-' ∨ c = '+'
      · rcases hs with h | h <;>
          simp +decide [isNumericGo, hd, h,
            isNumericGo_int_tail rest false false 1 one_ne_zero]
      · have h1 : c ≠ '+' := fun h => hs (Or.inr h)
        have h2 : c ≠ '-' := fun h => hs (Or.inl h)
        by_cases hp : c = '.'
        · subst hp
          simp +decide [isNumericGo]
        · by_cases he : c = 'e' ∨ c = 'E'
          · rcases he with h | h <;> subst h <;> simp +decide [isNumericGo]
          · simp [isNumericGo, hd, hs, hp, he, h1, h2]

/-- C2 (counterexample): the claim "the empty string is invalid, and a bare
sign with no digits is invalid" is false on the code — `isNumeric` accepts
`""`, `"+"` and `"-"` in integer mode, because its loop body never runs
respectively accepts a sign at index 0 and then the loop ends. -/
theorem C2_isNumeric_int_counterexample :
    isNumeric "" false = true ∧ isNumeric "+" false = true ∧
      isNumeric "-" false = true := by
  refine ⟨rfl, rfl, rfl⟩

/-- C1: the claim says well-formed float literals with one exponent marker
(such as `"1e5"` or `"2.5E-3"`) are accepted, but the `'e'/'E'` branch of
`isNumeric` sets its flags and then falls through to `return false`
unconditionally, so every string containing an exponent marker is rejected in
float mode. -/
theorem C1_exponent_literals_rejected :
    isNumeric "1e5" true = false ∧ isNumeric "2.5E-3" true = false := by
  refine ⟨rfl, rfl⟩

lemma applyOption_dup (opt : Opt) (param : Option String)
    (ht : opt.type ≠ OptType.FlagCount) (hs : opt.isSet = true) :
    applyOption opt param = (-1, opt) := by
  simp [applyOption, hs, ht]

lemma applyOption_flagCount (opt : Opt) (param : Option String)
    (ht : opt.type = OptType.FlagCount) :
    applyOption opt param = (0, { opt with isSet := true, value := opt.value.incr }) := by
  simp [applyOption, ht, Opt.requiresParameter]

lemma applyOption_flag (opt : Opt) (param : Option String)
    (ht : opt.type = OptType.Flag) (hs : opt.isSet = false) :
    applyOption opt param = (0, { opt with isSet := true, value := Value.bool true }) := by
  simp [applyOption, ht, hs, Opt.requiresParameter]

lemma applyOption_string (opt : Opt) (t : String)
    (ht : opt.type = OptType.String) (hs : opt.isSet = false) :
    applyOption opt (some t) =
      (1, { opt with isSet := true, value := Value.str (some t) }) := by
  simp [applyOption, ht, hs, Opt.requiresParameter]

lemma requiresParameter_isSet (opt : Opt) (b : Bool) :
    Opt.requiresParameter { opt with isSet := b } = opt.requiresParameter := rfl

lemma applyOption_missing_param (opt : Opt)
    (hr : opt.requiresParameter = true) (hs : opt.isSet = false) :
    applyOption opt none = (-1, { opt with isSet := true }) := by
  simp [applyOption, hs, requiresParameter_isSet, hr]

lemma applyOption_int_bad (opt : Opt) (p : String)
    (ht : opt.type = OptType.Int) (hs : opt.isSet = false)
    (hn : isNumeric p false = false) :
    applyOption opt (some p) = (-1, { opt with isSet := true }) := by
  simp [applyOption, ht, hs, hn, Opt.requiresParameter]

lemma applyOption_float_bad (opt : Opt) (p : String)
    (ht : opt.type = OptType.Float) (hs : opt.isSet = false)
    (hn : isNumeric p true = false) :
    applyOption opt (some p) = (-1, { opt with isSet := true }) := by
  simp [applyOption, ht, hs, hn, Opt.requiresParameter]

lemma applyOption_success_isSet (opt : Opt) (param : Option String)
    (h : (applyOption opt param).1 ≠ -1) :
    (applyOption opt param).2.isSet = true := by
  unfold applyOption at *
  by_cases hdup : (opt.type != OptType.FlagCount && opt.isSet) = true
  · simp [hdup] at h
  · simp only [hdup] at h ⊢
    simp only [Bool.not_eq_true] at hdup
    by_cases hmp : (Opt.requiresParameter { opt with isSet := true } && param.isNone) = true
    · simp [hmp] at h
    · simp only [hmp] at h ⊢
      simp only [Bool.not_eq_true] at hmp
      cases htype : opt.type <;> cases param <;>
        simp_all [applyOption, Opt.requiresParameter] <;>
        split <;> simp_all

lemma scanOpts_skip (c : Char) (isLast : Bool) (param : Option String)
    (pre rest : List Opt) (handled : Bool)
    (h : ∀ o ∈ pre, o.shortName ≠ c) :
    scanOptsForChar c isLast param (pre ++ rest) handled =
      (scanOptsForChar c isLast param rest handled).prependOpts pre := by
  induction pre with
  | nil =>
    cases hres : scanOptsForChar c isLast param rest handled <;>
      simp [InnerRes.prependOpts, hres]
  | cons o os ih =>
    have ho : o.shortName ≠ c := h o (List.mem_cons_self o os)
    have h2 : ∀ o2 ∈ os, o2.shortName ≠ c := fun o2 hm => h o2 (List.mem_cons_of_mem o hm)
    simp only [List.cons_append, scanOptsForChar]
    rw [if_neg ho]
    simp only [List.append_eq]
    rw [ih h2]
    cases scanOptsForChar c isLast param rest handled <;>
      simp [InnerRes.prependOpts]

lemma scanOpts_hit_mid (c : Char) (param : Option String) (opt : Opt) (post : List Opt)
    (handled : Bool) (hm : opt.shortName = c) (hr : opt.requiresParameter = true) :
    scanOptsForChar c false param (opt :: post) handled =
      InnerRes.ret (-1) (opt :: post) := by
  simp [scanOptsForChar, hm, hr]

lemma scanOpts_hit_last (c : Char) (param : Option String) (opt : Opt) (post : List Opt)
    (handled : Bool) (hm : opt.shortName = c)
    (hnz : (applyOption opt param).1 ≠ 0) :
    scanOptsForChar c true param (opt :: post) handled =
      InnerRes.ret (applyOption opt param).1 ((applyOption opt param).2 :: post) := by
  simp [scanOptsForChar, hm, hnz]

lemma scanOpts_hit_zero (c : Char) (isLast : Bool) (param : Option String) (opt : Opt)
    (post : List Opt) (handled : Bool) (hm : opt.shortName = c)
    (hguard : (opt.requiresParameter && !isLast) = false)
    (hz : (applyOption opt param).1 = 0) :
    scanOptsForChar c isLast param (opt :: post) handled =
      (scanOptsForChar c isLast param post true).prependOpts [(applyOption opt param).2] := by
  simp only [scanOptsForChar]
  rw [if_pos hm]
  simp only [hguard, Bool.false_eq_true, if_false, hz]
  simp only [bne_self_eq_false, Bool.false_eq_true, if_false]
  cases scanOptsForChar c isLast param post true <;>
    simp [InnerRes.prependOpts]

lemma findLong_none (name : String) (param : Option String) (opts : List Opt)
    (h : ∀ o ∈ opts, o.longName ≠ name) :
    findLong name param opts = none := by
  induction opts with
  | nil => rfl
  | cons o os ih =>
    have ho : o.longName ≠ name := h o (List.mem_cons_self o os)
    have h2 : ∀ o2 ∈ os, o2.longName ≠ name := fun o2 hm => h o2 (List.mem_cons_of_mem o hm)
    simp [findLong, ho, ih h2]

lemma findLong_skip (name : String) (param : Option String) (pre rest : List Opt)
    (h : ∀ o ∈ pre, o.longName ≠ name) :
    findLong name param (pre ++ rest) =
      (findLong name param rest).map (fun res => (res.1, pre ++ res.2)) := by
  induction pre with
  | nil => cases hres : findLong name param rest <;> simp [hres]
  | cons o os ih =>
    have ho : o.longName ≠ name := h o (List.mem_cons_self o os)
    have h2 : ∀ o2 ∈ os, o2.longName ≠ name := fun o2 hm => h o2 (List.mem_cons_of_mem o hm)
    simp only [List.cons_append, findLong]
    rw [if_neg ho]
    simp only [List.append_eq]
    rw [ih h2]
    cases findLong name param rest <;> simp

lemma findLong_hit (name : String) (param : Option String) (opt : Opt) (post : List Opt)
    (hm : opt.longName = name) :
    findLong name param (opt :: post) =
      some ((applyOption opt param).1, (applyOption opt param).2 :: post) := by
  simp [findLong, hm]

lemma applyOption_param_result (opt : Opt) (param : Option String)
    (hr : opt.requiresParameter = true) :
    (applyOption opt param).1 = -1 ∨ (applyOption opt param).1 = 1 := by
  unfold applyOption
  by_cases hdup : (opt.type != OptType.FlagCount && opt.isSet) = true
  · simp [hdup]
  · simp only [hdup]
    by_cases hmp : (Opt.requiresParameter { opt with isSet := true } && param.isNone) = true
    · simp [hmp]
    · simp only [hmp]
      cases htype : opt.type <;> cases param <;>
        simp_all [Opt.requiresParameter] <;> split <;> simp_all

lemma handleOption_positional (opts : List Opt) (rem : List String) (arg : String)
    (rest : List String) (h : isPositionalTok arg = true) :
    handleOption opts rem (arg :: rest) = (0, opts, rem ++ [arg]) := by
  unfold isPositionalTok at h
  unfold handleOption
  rcases hd : arg.data with _ | ⟨c, _ | ⟨c2, cs⟩⟩
  · simp [hd]
  · simp [hd]
  · rw [hd] at h
    by_cases hc : c = '-'
    · subst hc
      simp at h
    · simp [hd, hc]

lemma handleOption_cluster (opts : List Opt) (rem : List String) (arg : String)
    (rest : List String) (c2 : Char) (cs : List Char)
    (hd : arg.data = '-' :: c2 :: cs) (hc : c2 ≠ '-') :
    handleOption opts rem (arg :: rest) =
      ((handleCluster rest.head? (c2 :: cs) opts).1,
       (handleCluster rest.head? (c2 :: cs) opts).2, rem) := by
  unfold handleOption
  simp [hd, hc]

lemma handleOption_long (opts : List Opt) (rem : List String) (arg : String)
    (rest : List String) (cs : List Char) (hd : arg.data = '-' :: '-' :: cs) :
    handleOption opts rem (arg :: rest) =
      (match findLong (String.mk cs) rest.head? opts with
       | some res => (res.1, res.2, rem)
       | none => (-1, opts, rem)) := by
  unfold handleOption
  simp [hd]

lemma parseLoop_nil (opts : List Opt) (rem : List String) :
    parseLoop [] opts rem = (true, opts, rem) := by
  rw [parseLoop]

lemma parseLoop_cons (arg : String) (rest : List String) (opts : List Opt)
    (rem : List String) :
    parseLoop (arg :: rest) opts rem =
      (let res := handleOption opts rem (arg :: rest)
       if res.1 < 0 then (false, res.2.1, res.2.2)
       else parseLoop (rest.drop res.1.toNat) res.2.1 res.2.2) := by
  rw [parseLoop]

lemma validatePathOptionsLoop_eq (fs : Option String → Bool) (opts : List Opt)
    (valid : Bool) :
    validatePathOptionsLoop fs opts valid =
      (valid && opts.all fun o =>
        !(o.type == OptType.PathExisting) || checkExistsReadable fs o.pathString) := by
  induction opts generalizing valid with
  | nil => simp [validatePathOptionsLoop]
  | cons o os ih =>
    by_cases hb : (o.type == OptType.PathExisting && !checkExistsReadable fs o.pathString) = true
    · have h1 : (o.type == OptType.PathExisting) = true := (Bool.and_eq_true _ _ |>.mp hb).1
      have h2 : checkExistsReadable fs o.pathString = false := by
        have := (Bool.and_eq_true _ _ |>.mp hb).2
        simpa using this
      simp [validatePathOptionsLoop, hb, ih, h1, h2]
    · have h3 : (!(o.type == OptType.PathExisting) ||
          checkExistsReadable fs o.pathString) = true := by
        cases hbeq : (o.type == OptType.PathExisting)
        · simp
        · cases hcheck : checkExistsReadable fs o.pathString
          · exact absurd (by rw [hbeq, hcheck]; rfl) hb
          · simp
      simp [validatePathOptionsLoop, hb, ih, h3]

/-- C8: `validatePathOptions` is the conjunction, over every spec of kind
PathExisting, of whether the bound path opens for reading (the filesystem
being the oracle `fs`): it equals the `List.all` of the per-spec checks, it is
`true` exactly when every PathExisting spec's path is openable (vacuously so
with no PathExisting specs), and a failure already recorded is never
overwritten while the loop keeps visiting the remaining specs. -/
theorem C8_validatePathOptions_all (fs : Option String → Bool) (opts : List Opt) :
    (validatePathOptions fs opts =
      opts.all fun o =>
        !(o.type == OptType.PathExisting) || checkExistsReadable fs o.pathString)
    ∧ (validatePathOptions fs opts = true ↔
        ∀ o ∈ opts, o.type = OptType.PathExisting →
          checkExistsReadable fs o.pathString = true)
    ∧ (∀ opts2 : List Opt, validatePathOptionsLoop fs opts2 false = false) := by
  refine ⟨?_, ?_, ?_⟩
  · rw [validatePathOptions, validatePathOptionsLoop_eq]
    simp
  · rw [validatePathOptions, validatePathOptionsLoop_eq]
    simp only [Bool.true_and, List.all_eq_true]
    constructor
    · intro h o ho hty
      have := h o ho
      simp [hty] at this
      exact this
    · intro h o ho
      by_cases hty : o.type = OptType.PathExisting
      · simp [hty, h o ho hty]
      · simp [hty]
  · intro opts2
    rw [validatePathOptionsLoop_eq]
    simp

/-- C10: a token of exactly `"--"` is handled as a long option whose name is
the empty string: provided no declared spec has an empty `longName`, it
matches nothing, `handleOption` returns the unknown-option error −1, the scan
stops with overall failure, and the token is neither appended to the
remaining list nor treated as an end-of-options separator. -/
theorem C10_double_dash_unknown_option (opts : List Opt) (rem : List String)
    (rest : List String) (h : ∀ o ∈ opts, o.longName ≠ "") :
    handleOption opts rem ("--" :: rest) = (-1, opts, rem) ∧
      parseLoop ("--" :: rest) opts rem = (false, opts, rem) := by
  have hd : ("--" : String).data = '-' :: '-' :: [] := rfl
  have hho : handleOption opts rem ("--" :: rest) = (-1, opts, rem) := by
    rw [handleOption_long opts rem "--" rest [] hd]
    have hname : String.mk ([] : List Char) = "" := rfl
    rw [hname, findLong_none "" rest.head? opts h]
  refine ⟨hho, ?_⟩
  rw [parseLoop_cons]
  simp [hho]

/-- C10 witness. -/
theorem C10_double_dash_unknown_option_witness :
    handleOption [OptionString 'S' "string" "d" false none] [] ["--", "x"] =
        (-1, [OptionString 'S' "string" "d" false none], []) ∧
      parseLoop ["--", "x"] [OptionString 'S' "string" "d" false none] [] =
        (false, [OptionString 'S' "string" "d" false none], []) := by
  exact C10_double_dash_unknown_option [OptionString 'S' "string" "d" false none] [] ["x"]
    (by decide)

lemma handleCluster_single_ret (c : Char) (param : Option String) (opts os : List Opt)
    (r : Int) (hscan : scanOptsForChar c true param opts false = InnerRes.ret r os) :
    handleCluster param [c] opts = (r, os) := by
  unfold handleCluster
  simp only [List.isEmpty_nil] at *
  rw [hscan]

/-- C9: when applying an option fails with a missing-parameter or
invalid-numeric-literal error, `isSet` has already been set to `true` before
the failing check runs: `applyOption` returns −1 together with the input
option whose only change is `isSet := true` (the value slot is untouched);
and after a whole failed parse over a lone Int option fed a bad literal, the
final state shows `isSet = true` with the original value. -/
theorem C9_isSet_before_failing_check :
    (∀ opt : Opt, opt.isSet = false → opt.requiresParameter = true →
        applyOption opt none = (-1, { opt with isSet := true }))
    ∧ (∀ (opt : Opt) (p : String), opt.isSet = false → opt.type = OptType.Int →
        isNumeric p false = false →
        applyOption opt (some p) = (-1, { opt with isSet := true }))
    ∧ (∀ (opt : Opt) (p : String), opt.isSet = false → opt.type = OptType.Float →
        isNumeric p true = false →
        applyOption opt (some p) = (-1, { opt with isSet := true }))
    ∧ (∀ (opt : Opt) (p : String) (rem more : List String),
        opt.isSet = false → opt.type = OptType.Int → opt.shortName ≠ '-' →
        isNumeric p false = false →
        parseLoop (String.mk ['-', opt.shortName] :: p :: more) [opt] rem =
          (false, [{ opt with isSet := true }], rem)) := by
  refine ⟨fun opt hs hr => applyOption_missing_param opt hr hs,
    fun opt p hs ht hn => applyOption_int_bad opt p ht hs hn,
    fun opt p hs ht hn => applyOption_float_bad opt p ht hs hn,
    ?_⟩
  intro opt p rem more hs hty hc hn
  have happ : applyOption opt (some p) = (-1, { opt with isSet := true }) :=
    applyOption_int_bad opt p hty hs hn
  have hscan : scanOptsForChar opt.shortName true (some p) [opt] false =
      InnerRes.ret (-1) [{ opt with isSet := true }] := by
    rw [scanOpts_hit_last opt.shortName (some p) opt [] false rfl (by rw [happ]; simp)]
    rw [happ]
  have hclu : handleCluster (some p) [opt.shortName] [opt] =
      (-1, [{ opt with isSet := true }]) :=
    handleCluster_single_ret _ _ _ _ _ hscan
  have hho : handleOption [opt] rem (String.mk ['-', opt.shortName] :: p :: more) =
      (-1, [{ opt with isSet := true }], rem) := by
    rw [handleOption_cluster [opt] rem _ _ opt.shortName [] rfl hc]
    simp only [List.head?_cons, hclu]
  rw [parseLoop_cons]
  simp [hho]

/-- C9 witness: a lone Int option `-I` fed the bad literal `"abc"`. -/
theorem C9_isSet_before_failing_check_witness :
    parseLoop [String.mk ['-', 'I'], "abc"] [OptionInt 'I' "int" "d" false 0] [] =
      (false, [{ OptionInt 'I' "int" "d" false 0 with isSet := true }], []) :=
  C9_isSet_before_failing_check.2.2.2 (OptionInt 'I' "int" "d" false 0) "abc" [] []
    rfl rfl (by decide) (by decide)

/-- C3: in a short-option cluster, a character that matches a
parameter-requiring spec and is not the last character of the cluster makes
the scan return the −1 error with no option touched and the whole parse fail;
as the last character, the scan hands the next whole token to `applyOption`
(for a string option this binds the token and returns 1), and the token-level
loop then skips the consumed parameter token. -/
theorem C3_cluster_parameter_position (c : Char) (preOpts post : List Opt) (opt : Opt)
    (hpre : ∀ o ∈ preOpts, o.shortName ≠ c) (hm : opt.shortName = c)
    (hreq : opt.requiresParameter = true) :
    (∀ (cs : List Char) (param : Option String), cs ≠ [] →
        handleCluster param (c :: cs) (preOpts ++ opt :: post) =
          (-1, preOpts ++ opt :: post))
    ∧ (∀ (cs : List Char) (more rem : List String), cs ≠ [] → c ≠ '-' →
        parseLoop (String.mk ('-' :: c :: cs) :: more) (preOpts ++ opt :: post) rem =
          (false, preOpts ++ opt :: post, rem))
    ∧ (∀ param : Option String,
        handleCluster param [c] (preOpts ++ opt :: post) =
          ((applyOption opt param).1, preOpts ++ (applyOption opt param).2 :: post))
    ∧ (∀ (t : String) (more rem : List String), c ≠ '-' → opt.isSet = false →
        opt.type = OptType.String →
        parseLoop (String.mk ['-', c] :: t :: more) (preOpts ++ opt :: post) rem =
          parseLoop more
            (preOpts ++
              { opt with isSet := true, value := Value.str (some t) } :: post) rem) := by
  have part1 : ∀ (cs : List Char) (param : Option String), cs ≠ [] →
      handleCluster param (c :: cs) (preOpts ++ opt :: post) =
        (-1, preOpts ++ opt :: post) := by
    intro cs param hcs
    have hlast : cs.isEmpty = false := by
      cases cs
      · exact absurd rfl hcs
      · rfl
    simp only [handleCluster, hlast]
    rw [scanOpts_skip c false param preOpts (opt :: post) false hpre,
      scanOpts_hit_mid c param opt post false hm hreq]
    simp [InnerRes.prependOpts]
  have part3 : ∀ param : Option String,
      handleCluster param [c] (preOpts ++ opt :: post) =
        ((applyOption opt param).1, preOpts ++ (applyOption opt param).2 :: post) := by
    intro param
    have hnz : (applyOption opt param).1 ≠ 0 := by
      rcases applyOption_param_result opt param hreq with h | h <;> rw [h] <;> decide
    have hscan : scanOptsForChar c true param (preOpts ++ opt :: post) false =
        InnerRes.ret (applyOption opt param).1
          (preOpts ++ (applyOption opt param).2 :: post) := by
      rw [scanOpts_skip c true param preOpts (opt :: post) false hpre,
        scanOpts_hit_last c param opt post false hm hnz]
      simp [InnerRes.prependOpts]
    exact handleCluster_single_ret _ _ _ _ _ hscan
  refine ⟨part1, ?_, part3, ?_⟩
  · intro cs more rem hcs hc
    have hho : handleOption (preOpts ++ opt :: post) rem
        (String.mk ('-' :: c :: cs) :: more) = (-1, preOpts ++ opt :: post, rem) := by
      rw [handleOption_cluster _ rem _ more c cs rfl hc, part1 cs more.head? hcs]
    rw [parseLoop_cons]
    simp [hho]
  · intro t more rem hc hset hty
    have happ := applyOption_string opt t hty hset
    have hho : handleOption (preOpts ++ opt :: post) rem
        (String.mk ['-', c] :: t :: more) =
        (1, preOpts ++ { opt with isSet := true, value := Value.str (some t) } :: post,
          rem) := by
      rw [handleOption_cluster _ rem _ (t :: more) c [] rfl hc]
      simp only [List.head?_cons]
      rw [part3 (some t), happ]
    rw [parseLoop_cons]
    simp [hho]

/-- C3 witness: FlagCount `v` and String `S`; `-Sv` fails while `-S f` binds
`"f"` and skips it. -/
theorem C3_cluster_parameter_position_witness :
    parseLoop [String.mk ['-', 'S', 'v']]
        [OptionFlagCount 'v' "verbose" "d" 0, OptionString 'S' "string" "d" false none]
        [] =
      (false,
        [OptionFlagCount 'v' "verbose" "d" 0, OptionString 'S' "string" "d" false none],
        []) ∧
    parseLoop [String.mk ['-', 'S'], "f"]
        [OptionFlagCount 'v' "verbose" "d" 0, OptionString 'S' "string" "d" false none]
        [] =
      parseLoop []
        [OptionFlagCount 'v' "verbose" "d" 0,
          { OptionString 'S' "string" "d" false none with
              isSet := true, value := Value.str (some "f") }]
        [] := by
  have h := C3_cluster_parameter_position 'S'
    [OptionFlagCount 'v' "verbose" "d" 0] []
    (OptionString 'S' "string" "d" false none)
    (by decide) rfl (by decide)
  exact ⟨h.2.1 ['v'] [] [] (by decide) (by decide),
    h.2.2.2 "f" [] [] (by decide) rfl rfl⟩

lemma parseLoop_dup_short (opt : Opt) (preOpts post : List Opt)
    (more rem : List String) (ht : opt.type ≠ OptType.FlagCount)
    (hset : opt.isSet = true) (hc : opt.shortName ≠ '-')
    (hpre : ∀ o ∈ preOpts, o.shortName ≠ opt.shortName) :
    parseLoop (String.mk ['-', opt.shortName] :: more) (preOpts ++ opt :: post) rem =
      (false, preOpts ++ opt :: post, rem) := by
  have happ := applyOption_dup opt more.head? ht hset
  have hnz : (applyOption opt more.head?).1 ≠ 0 := by rw [happ]; simp
  have hscan : scanOptsForChar opt.shortName true more.head?
      (preOpts ++ opt :: post) false =
      InnerRes.ret (-1) (preOpts ++ opt :: post) := by
    rw [scanOpts_skip opt.shortName true more.head? preOpts (opt :: post) false hpre,
      scanOpts_hit_last opt.shortName more.head? opt post false rfl hnz, happ]
    simp [InnerRes.prependOpts]
  have hho : handleOption (preOpts ++ opt :: post) rem
      (String.mk ['-', opt.shortName] :: more) = (-1, preOpts ++ opt :: post, rem) := by
    rw [handleOption_cluster _ rem _ more opt.shortName [] rfl hc,
      handleCluster_single_ret _ _ _ _ _ hscan]
  rw [parseLoop_cons]
  simp [hho]

lemma parseLoop_dup_long (opt : Opt) (preOpts post : List Opt)
    (more rem : List String) (ht : opt.type ≠ OptType.FlagCount)
    (hset : opt.isSet = true)
    (hlpre : ∀ o ∈ preOpts, o.longName ≠ opt.longName) :
    parseLoop (String.mk ('-' :: '-' :: opt.longName.data) :: more)
      (preOpts ++ opt :: post) rem = (false, preOpts ++ opt :: post, rem) := by
  have happ := applyOption_dup opt more.head? ht hset
  have hfind : findLong opt.longName more.head? (preOpts ++ opt :: post) =
      some (-1, preOpts ++ opt :: post) := by
    rw [findLong_skip opt.longName more.head? preOpts (opt :: post) hlpre,
      findLong_hit opt.longName more.head? opt post rfl, happ]
    simp
  have hho : handleOption (preOpts ++ opt :: post) rem
      (String.mk ('-' :: '-' :: opt.longName.data) :: more) =
      (-1, preOpts ++ opt :: post, rem) := by
    rw [handleOption_long _ rem _ more opt.longName.data rfl]
    have hmk : String.mk opt.longName.data = opt.longName := rfl
    rw [hmk, hfind]
  rw [parseLoop_cons]
  simp [hho]

lemma scanOpts_flag_single (opt : Opt) (preOpts post : List Opt)
    (param : Option String) (isLast : Bool) (hty : opt.type = OptType.Flag)
    (hset : opt.isSet = false)
    (hpre : ∀ o ∈ preOpts, o.shortName ≠ opt.shortName)
    (hpost : ∀ o ∈ post, o.shortName ≠ opt.shortName) :
    scanOptsForChar opt.shortName isLast param (preOpts ++ opt :: post) false =
      InnerRes.cont true
        (preOpts ++ { opt with isSet := true, value := Value.bool true } :: post) := by
  have happ1 := applyOption_flag opt param hty hset
  have hguard : (opt.requiresParameter && !isLast) = false := by
    simp [Opt.requiresParameter, hty]
  have hpost_scan : scanOptsForChar opt.shortName isLast param post true =
      InnerRes.cont true post := by
    have h := scanOpts_skip opt.shortName isLast param post [] true hpost
    simpa [scanOptsForChar, InnerRes.prependOpts] using h
  rw [scanOpts_skip opt.shortName isLast param preOpts (opt :: post) false hpre,
    scanOpts_hit_zero opt.shortName isLast param opt post false rfl hguard
      (by rw [happ1]),
    hpost_scan, happ1]
  simp [InnerRes.prependOpts]

lemma handleCluster_double_flag (opt : Opt) (preOpts post : List Opt)
    (param : Option String) (hty : opt.type = OptType.Flag) (hset : opt.isSet = false)
    (hpre : ∀ o ∈ preOpts, o.shortName ≠ opt.shortName)
    (hpost : ∀ o ∈ post, o.shortName ≠ opt.shortName) :
    handleCluster param [opt.shortName, opt.shortName] (preOpts ++ opt :: post) =
      (-1, preOpts ++ { opt with isSet := true, value := Value.bool true } :: post) := by
  have hscan1 := scanOpts_flag_single opt preOpts post param false hty hset hpre hpost
  have happ2 : applyOption { opt with isSet := true, value := Value.bool true }
      param = (-1, { opt with isSet := true, value := Value.bool true }) := by
    refine applyOption_dup _ param ?_ rfl
    simp [hty]
  have hnz2 : (applyOption { opt with isSet := true, value := Value.bool true }
      param).1 ≠ 0 := by rw [happ2]; simp
  have hscan2 : scanOptsForChar opt.shortName true param
      (preOpts ++ { opt with isSet := true, value := Value.bool true } :: post)
      false =
      InnerRes.ret (-1)
        (preOpts ++ { opt with isSet := true, value := Value.bool true } :: post) := by
    rw [scanOpts_skip opt.shortName true param preOpts _ false hpre,
      scanOpts_hit_last opt.shortName param
        { opt with isSet := true, value := Value.bool true } post false rfl hnz2,
      happ2]
    simp [InnerRes.prependOpts]
  have hstep2 := handleCluster_single_ret _ _ _ _ _ hscan2
  simp only [handleCluster, List.isEmpty_cons, hscan1]
  simpa using hstep2

lemma handleOption_flag_single (opt : Opt) (preOpts post : List Opt)
    (more rem : List String) (hty : opt.type = OptType.Flag) (hset : opt.isSet = false)
    (hc : opt.shortName ≠ '-')
    (hpre : ∀ o ∈ preOpts, o.shortName ≠ opt.shortName)
    (hpost : ∀ o ∈ post, o.shortName ≠ opt.shortName) :
    handleOption (preOpts ++ opt :: post) rem (String.mk ['-', opt.shortName] :: more) =
      (0, preOpts ++ { opt with isSet := true, value := Value.bool true } :: post,
        rem) := by
  rw [handleOption_cluster _ rem _ more opt.shortName [] rfl hc]
  have hscan := scanOpts_flag_single opt preOpts post more.head? true hty hset hpre hpost
  simp only [handleCluster, List.isEmpty_nil, hscan, if_true]

/-- C4: for a declared option whose kind is not FlagCount, a second
application within one parse fails: `applyOption` on an already-set option
returns −1 and leaves it untouched; any successful application sets `isSet`;
a second invocation of an already-set option via a short or a long token makes
the parse fail; a second occurrence of the character inside one cluster drives
the cluster scan to the −1 error; and mixing forms — a flag applied first by
its short token and then by its long token — fails as well. -/
theorem C4_duplicate_non_flagcount_fails (opt : Opt) (preOpts post : List Opt) :
    (∀ param : Option String, opt.type ≠ OptType.FlagCount → opt.isSet = true →
        applyOption opt param = (-1, opt))
    ∧ (∀ param : Option String, (applyOption opt param).1 ≠ -1 →
        (applyOption opt param).2.isSet = true)
    ∧ (∀ (more rem : List String), opt.type ≠ OptType.FlagCount → opt.isSet = true →
        opt.shortName ≠ '-' → (∀ o ∈ preOpts, o.shortName ≠ opt.shortName) →
        parseLoop (String.mk ['-', opt.shortName] :: more) (preOpts ++ opt :: post) rem =
          (false, preOpts ++ opt :: post, rem))
    ∧ (∀ (more rem : List String), opt.type ≠ OptType.FlagCount → opt.isSet = true →
        (∀ o ∈ preOpts, o.longName ≠ opt.longName) →
        parseLoop (String.mk ('-' :: '-' :: opt.longName.data) :: more)
          (preOpts ++ opt :: post) rem = (false, preOpts ++ opt :: post, rem))
    ∧ (∀ param : Option String, opt.type = OptType.Flag → opt.isSet = false →
        (∀ o ∈ preOpts, o.shortName ≠ opt.shortName) →
        (∀ o ∈ post, o.shortName ≠ opt.shortName) →
        handleCluster param [opt.shortName, opt.shortName] (preOpts ++ opt :: post) =
          (-1,
            preOpts ++ { opt with isSet := true, value := Value.bool true } :: post))
    ∧ (∀ (more rem : List String), opt.type = OptType.Flag → opt.isSet = false →
        opt.shortName ≠ '-' →
        (∀ o ∈ preOpts, o.shortName ≠ opt.shortName) →
        (∀ o ∈ post, o.shortName ≠ opt.shortName) →
        (∀ o ∈ preOpts, o.longName ≠ opt.longName) →
        parseLoop
          (String.mk ['-', opt.shortName] ::
            String.mk ('-' :: '-' :: opt.longName.data) :: more)
          (preOpts ++ opt :: post) rem =
          (false,
            preOpts ++ { opt with isSet := true, value := Value.bool true } :: post,
            rem)) := by
  refine ⟨fun param ht hs => applyOption_dup opt param ht hs,
    fun param h => applyOption_success_isSet opt param h,
    fun more rem ht hset hc hpre => parseLoop_dup_short opt preOpts post more rem
      ht hset hc hpre,
    fun more rem ht hset hlpre => parseLoop_dup_long opt preOpts post more rem
      ht hset hlpre,
    fun param hty hset hpre hpost => handleCluster_double_flag opt preOpts post param
      hty hset hpre hpost, ?_⟩
  intro more rem hty hset hc hpre hpost hlpre
  rw [parseLoop_cons]
  have hho := handleOption_flag_single opt preOpts post
    (String.mk ('-' :: '-' :: opt.longName.data) :: more) rem hty hset hc hpre hpost
  simp only [hho, Int.toNat_zero, List.drop_zero]
  norm_num
  exact parseLoop_dup_long { opt with isSet := true, value := Value.bool true }
    preOpts post more rem (by simp [hty]) rfl hlpre

/-- C4 witness: a Flag `D` applied twice via short, long, in-cluster and
mixed short-then-long forms. -/
theorem C4_duplicate_non_flagcount_fails_witness :
    parseLoop [String.mk ['-', 'D']]
        [{ OptionFlag 'D' "debug" "d" false with isSet := true }] [] =
      (false, [{ OptionFlag 'D' "debug" "d" false with isSet := true }], []) ∧
    parseLoop [String.mk ('-' :: '-' :: "debug".data)]
        [{ OptionFlag 'D' "debug" "d" false with isSet := true }] [] =
      (false, [{ OptionFlag 'D' "debug" "d" false with isSet := true }], []) ∧
    handleCluster none ['D', 'D'] [OptionFlag 'D' "debug" "d" false] =
      (-1, [{ OptionFlag 'D' "debug" "d" false with
                isSet := true, value := Value.bool true }]) ∧
    parseLoop [String.mk ['-', 'D'], String.mk ('-' :: '-' :: "debug".data)]
        [OptionFlag 'D' "debug" "d" false] [] =
      (false, [{ OptionFlag 'D' "debug" "d" false with
                   isSet := true, value := Value.bool true }], []) := by
  have h1 := C4_duplicate_non_flagcount_fails
    { OptionFlag 'D' "debug" "d" false with isSet := true } [] []
  have h2 := C4_duplicate_non_flagcount_fails (OptionFlag 'D' "debug" "d" false) [] []
  exact ⟨h1.2.2.1 [] [] (by decide) rfl (by decide) (by decide),
    h1.2.2.2.1 [] [] (by decide) rfl (by decide),
    h2.2.2.2.2.1 none rfl rfl (by decide) (by decide),
    h2.2.2.2.2.2 [] [] rfl rfl (by decide) (by decide) (by decide) (by decide)⟩

lemma handleCluster_flagCount (c : Char) (param : Option String) (n : Nat) (o : Opt)
    (v : Int) (ht : o.type = OptType.FlagCount) (hm : o.shortName = c)
    (hv : o.value = Value.int v) :
    handleCluster param (List.replicate n c) [o] =
      (0, [if n = 0 then o
           else { o with isSet := true, value := Value.int (v + n) }]) := by
  induction n generalizing o v with
  | zero => simp [handleCluster]
  | succ k ih =>
    have happ := applyOption_flagCount o param ht
    have hincr : o.value.incr = Value.int (v + 1) := by rw [hv]; rfl
    have hguard : (o.requiresParameter && !(List.replicate k c).isEmpty) = false := by
      simp [Opt.requiresParameter, ht]
    have hz : (applyOption o param).1 = 0 := by rw [happ]
    have hscan : scanOptsForChar c ((List.replicate k c).isEmpty) param [o] false =
        InnerRes.cont true [{ o with isSet := true, value := Value.int (v + 1) }] := by
      rw [scanOpts_hit_zero c _ param o [] false hm hguard hz, happ]
      simp [scanOptsForChar, InnerRes.prependOpts, hincr]
    rw [List.replicate_succ]
    simp only [handleCluster, hscan, if_true]
    rw [ih { o with isSet := true, value := Value.int (v + 1) } (v + 1) ht hm rfl]
    cases k with
    | zero => simp
    | succ j =>
      simp only [Nat.succ_ne_zero, if_false, Prod.mk.injEq, List.cons.injEq,
        and_true, true_and]
      congr 1
      push_cast
      ring_nf

lemma parseLoop_flagCount_tokens (c : Char) (hc : c ≠ '-') (n : Nat) (o : Opt)
    (v : Int) (ht : o.type = OptType.FlagCount) (hm : o.shortName = c)
    (hv : o.value = Value.int v) (rem : List String) :
    parseLoop (List.replicate n (String.mk ['-', c])) [o] rem =
      (true, [if n = 0 then o
              else { o with isSet := true, value := Value.int (v + n) }], rem) := by
  induction n generalizing o v with
  | zero => simp [parseLoop_nil]
  | succ k ih =>
    have hclu : handleCluster
        (List.replicate k (String.mk ['-', c])).head? [c] [o] =
        (0, [{ o with isSet := true, value := Value.int (v + 1) }]) := by
      have h1 := handleCluster_flagCount c
        (List.replicate k (String.mk ['-', c])).head? 1 o v ht hm hv
      simpa using h1
    have hho : handleOption [o] rem
        (String.mk ['-', c] :: List.replicate k (String.mk ['-', c])) =
        (0, [{ o with isSet := true, value := Value.int (v + 1) }], rem) := by
      rw [handleOption_cluster [o] rem _ _ c [] rfl hc, hclu]
    rw [List.replicate_succ, parseLoop_cons]
    simp only [hho, Int.toNat_zero, List.drop_zero]
    norm_num
    rw [ih { o with isSet := true, value := Value.int (v + 1) } (v + 1) ht hm rfl]
    cases k with
    | zero => simp
    | succ j =>
      simp only [Nat.succ_ne_zero, if_false, Prod.mk.injEq, List.cons.injEq,
        and_true, true_and]
      congr 1
      push_cast
      ring_nf

/-- C5: a FlagCount option invoked `n` times — as `n` separate short tokens
or as one `n`-character cluster — ends with its integer slot at the initial
value plus `n`; started from 0 the bound count is exactly `n`, and with
`n = 0` the whole option record, in particular the caller-supplied initial
value, is unchanged. -/
theorem C5_flagcount_count (c : Char) (ln d : String) (v0 : Int) (n : Nat)
    (hc : c ≠ '-') :
    (parse [OptionFlagCount c ln d v0]
        ("prog" :: List.replicate n (String.mk ['-', c])) =
      (true,
        [if n = 0 then OptionFlagCount c ln d v0
         else { OptionFlagCount c ln d v0 with
                  isSet := true, value := Value.int (v0 + n) }], []))
    ∧ (∀ param : Option String,
        handleCluster param (List.replicate n c) [OptionFlagCount c ln d v0] =
          (0, [if n = 0 then OptionFlagCount c ln d v0
               else { OptionFlagCount c ln d v0 with
                        isSet := true, value := Value.int (v0 + n) }]))
    ∧ (v0 = 0 →
        (parse [OptionFlagCount c ln d v0]
            ("prog" :: List.replicate n (String.mk ['-', c]))).2.1 =
          [if n = 0 then OptionFlagCount c ln d v0
           else { OptionFlagCount c ln d v0 with
                    isSet := true, value := Value.int n }])
    ∧ (n = 0 →
        parse [OptionFlagCount c ln d v0] ["prog"] =
          (true, [OptionFlagCount c ln d v0], [])) := by
  have hreq : (if n = 0 then OptionFlagCount c ln d v0
      else { OptionFlagCount c ln d v0 with
               isSet := true, value := Value.int (v0 + n) }).isRequired = false := by
    split <;> rfl
  have hloop := parseLoop_flagCount_tokens c hc n (OptionFlagCount c ln d v0) v0
    rfl rfl rfl []
  have hparse : parse [OptionFlagCount c ln d v0]
      ("prog" :: List.replicate n (String.mk ['-', c])) =
      (true,
        [if n = 0 then OptionFlagCount c ln d v0
         else { OptionFlagCount c ln d v0 with
                  isSet := true, value := Value.int (v0 + n) }], []) := by
    unfold parse
    simp only [List.drop_succ_cons, List.drop_zero, hloop, Bool.not_true,
      Bool.false_eq_true, if_false]
    simp [firstMissingRequired, hreq]
  refine ⟨hparse, ?_, ?_, ?_⟩
  · intro param
    exact handleCluster_flagCount c param n (OptionFlagCount c ln d v0) v0 rfl rfl rfl
  · intro h0
    subst h0
    rw [hparse]
    simp
  · intro hn
    subst hn
    simpa using hparse

/-- C5 witness: FlagCount `v` with initial value 2 invoked three times ends
at 5. -/
theorem C5_flagcount_count_witness :
    parse [OptionFlagCount 'v' "verbose" "d" 2]
        ("prog" :: List.replicate 3 (String.mk ['-', 'v'])) =
      (true, [{ OptionFlagCount 'v' "verbose" "d" 2 with
                  isSet := true, value := Value.int 5 }], []) := by
  have h := (C5_flagcount_count 'v' "verbose" "d" 2 3 (by decide)).1
  norm_num at h
  exact h

lemma firstMissingRequired_eq_find (opts : List Opt) :
    firstMissingRequired opts = opts.find? fun o => o.isRequired && !o.isSet := by
  induction opts with
  | nil => rfl
  | cons o os ih =>
    by_cases h : (o.isRequired && !o.isSet) = true
    · simp [firstMissingRequired, List.find?_cons_of_pos, h]
    · rw [List.find?_cons_of_neg _ (by simp [h])]
      simp only [firstMissingRequired, h, Bool.false_eq_true, if_false]
      exact ih

/-- C6: the required-option check runs only after the token scan has finished
without error: a failed scan makes `parse` return that failure state with the
check never consulted; after a successful scan `parse` succeeds exactly when
every spec with `isRequired` has `isSet`, and the violation reported is the
first one in spec declaration order (`List.find?`). -/
theorem C6_required_after_scan (opts : List Opt) (argv : List String) :
    (∀ (opts2 : List Opt) (rem : List String),
        parseLoop (argv.drop 1) opts [] = (true, opts2, rem) →
        (parse opts argv = ((firstMissingRequired opts2).isNone, opts2, rem))
        ∧ ((parse opts argv).1 = true ↔
            ∀ o ∈ opts2, o.isRequired = true → o.isSet = true)
        ∧ firstMissingRequired opts2 =
            opts2.find? (fun o => o.isRequired && !o.isSet))
    ∧ (∀ (opts3 : List Opt) (rem3 : List String),
        parseLoop (argv.drop 1) opts [] = (false, opts3, rem3) →
        parse opts argv = (false, opts3, rem3)) := by
  constructor
  · intro opts2 rem hscan
    have hmain : parse opts argv = ((firstMissingRequired opts2).isNone, opts2, rem) := by
      unfold parse
      rw [hscan]
      cases hfm : firstMissingRequired opts2 <;> simp [hfm]
    refine ⟨hmain, ?_, firstMissingRequired_eq_find opts2⟩
    rw [hmain]
    simp only [firstMissingRequired_eq_find]
    constructor
    · intro h o ho hreq
      rw [Option.isNone_iff_eq_none, List.find?_eq_none] at h
      have h2 := h o ho
      simp [hreq] at h2
      exact h2
    · intro h
      rw [Option.isNone_iff_eq_none, List.find?_eq_none]
      intro o ho
      by_cases hr : o.isRequired = true
      · simp [hr, h o ho hr]
      · simp only [Bool.not_eq_true] at hr
        simp [hr]
  · intro opts3 rem3 hscan
    unfold parse
    rw [hscan]
    simp

/-- C6 witness: a required but never-supplied String option, empty argument
tail. -/
theorem C6_required_after_scan_witness :
    parse [OptionString 'S' "string" "d" true none] ["p"] =
      ((firstMissingRequired [OptionString 'S' "string" "d" true none]).isNone,
        [OptionString 'S' "string" "d" true none], []) :=
  ((C6_required_after_scan [OptionString 'S' "string" "d" true none] ["p"]).1
    [OptionString 'S' "string" "d" true none] [] (by simp [parseLoop_nil])).1

lemma handleOption_rem_option (opts : List Opt) (rem : List String) (arg : String)
    (rest : List String) (c2 : Char) (cs : List Char)
    (hd : arg.data = '-' :: c2 :: cs) :
    (handleOption opts rem (arg :: rest)).2.2 = rem := by
  by_cases hc : c2 = '-'
  · subst hc
    rw [handleOption_long opts rem arg rest cs hd]
    cases hfl : findLong (String.mk cs) rest.head? opts <;> simp [hfl]
  · rw [handleOption_cluster opts rem arg rest c2 cs hd hc]

lemma parseLoop_remaining_bound (nmax : Nat) : ∀ (args : List String),
    args.length ≤ nmax → ∀ (opts : List Opt) (rem : List String),
    ∃ added : List String,
      (parseLoop args opts rem).2.2 = rem ++ added ∧
      List.Sublist added args ∧ ∀ t ∈ added, isPositionalTok t = true := by
  induction nmax with
  | zero =>
    intro args hlen opts rem
    have hargs : args = [] := List.length_eq_zero.mp (Nat.le_zero.mp hlen)
    subst hargs
    exact ⟨[], by simp [parseLoop_nil], List.nil_sublist _, by simp⟩
  | succ m ih =>
    intro args hlen opts rem
    cases args with
    | nil => exact ⟨[], by simp [parseLoop_nil], List.nil_sublist _, by simp⟩
    | cons arg rest =>
      have hrlen : rest.length ≤ m := by
        simp at hlen
        omega
      by_cases hp : isPositionalTok arg = true
      · have hho := handleOption_positional opts rem arg rest hp
        rw [parseLoop_cons]
        simp only [hho]
        norm_num
        obtain ⟨added, h1, h2, h3⟩ := ih rest hrlen opts (rem ++ [arg])
        refine ⟨arg :: added, ?_, h2.cons₂ arg, ?_⟩
        · rw [h1]
          simp
        · intro t ht
          rcases List.mem_cons.mp ht with h | h
          · rw [h]
            exact hp
          · exact h3 t h
      · have hdata : ∃ c2 cs, arg.data = '-' :: c2 :: cs := by
          rcases hd : arg.data with _ | ⟨c, _ | ⟨c2, cs⟩⟩
          · exact absurd (by simp [isPositionalTok, hd]) hp
          · exact absurd (by simp [isPositionalTok, hd]) hp
          · by_cases hc : c = '-'
            · exact ⟨c2, cs, by rw [hc]⟩
            · exact absurd (by simp [isPositionalTok, hd, hc]) hp
        obtain ⟨c2, cs, hd⟩ := hdata
        have hrem := handleOption_rem_option opts rem arg rest c2 cs hd
        rw [parseLoop_cons]
        by_cases hneg : (handleOption opts rem (arg :: rest)).1 < 0
        · simp only [if_pos hneg]
          exact ⟨[], by simp [hrem], List.nil_sublist _, by simp⟩
        · simp only [if_neg hneg]
          have hdlen : (rest.drop (handleOption opts rem (arg :: rest)).1.toNat).length
              ≤ m := by
            simp [List.length_drop]
            omega
          obtain ⟨added, h1, h2, h3⟩ := ih
            (rest.drop (handleOption opts rem (arg :: rest)).1.toNat) hdlen
            (handleOption opts rem (arg :: rest)).2.1
            (handleOption opts rem (arg :: rest)).2.2
          refine ⟨added, ?_, ?_, h3⟩
          · rw [h1, hrem]
          · exact h2.trans ((List.drop_sublist _ _).trans
              (List.sublist_cons_self arg rest))

lemma not_positional_data (arg : String) (hp : isPositionalTok arg = false) :
    ∃ c2 cs, arg.data = '-' :: c2 :: cs := by
  rcases hd : arg.data with _ | ⟨c, _ | ⟨c2, cs⟩⟩
  · rw [← Bool.not_eq_true] at hp
    exact absurd (by simp [isPositionalTok, hd]) hp
  · rw [← Bool.not_eq_true] at hp
    exact absurd (by simp [isPositionalTok, hd]) hp
  · by_cases hc : c = '-'
    · exact ⟨c2, cs, by rw [hc]⟩
    · rw [← Bool.not_eq_true] at hp
      exact absurd (by simp [isPositionalTok, hd, hc]) hp

lemma handleOption_rem_decomp (opts : List Opt) (rem : List String) (arg : String)
    (rest : List String) :
    (handleOption opts rem (arg :: rest)).1 = (handleOption opts [] (arg :: rest)).1
    ∧ (handleOption opts rem (arg :: rest)).2.1 =
        (handleOption opts [] (arg :: rest)).2.1
    ∧ (handleOption opts rem (arg :: rest)).2.2 =
        rem ++ (handleOption opts [] (arg :: rest)).2.2 := by
  by_cases hp : isPositionalTok arg = true
  · rw [handleOption_positional opts rem arg rest hp,
      handleOption_positional opts [] arg rest hp]
    simp
  · rw [Bool.not_eq_true] at hp
    obtain ⟨c2, cs, hd⟩ := not_positional_data arg hp
    by_cases hc : c2 = '-'
    · subst hc
      rw [handleOption_long opts rem arg rest cs hd,
        handleOption_long opts [] arg rest cs hd]
      cases hfl : findLong (String.mk cs) rest.head? opts <;> simp [hfl]
    · rw [handleOption_cluster opts rem arg rest c2 cs hd hc,
        handleOption_cluster opts [] arg rest c2 cs hd hc]
      simp

lemma parseLoop_rem_locality_bound (nmax : Nat) : ∀ (args : List String),
    args.length ≤ nmax → ∀ (opts : List Opt) (rem : List String),
    (parseLoop args opts rem).2.2 = rem ++ (parseLoop args opts []).2.2 := by
  induction nmax with
  | zero =>
    intro args hlen opts rem
    have hargs : args = [] := List.length_eq_zero.mp (Nat.le_zero.mp hlen)
    subst hargs
    simp [parseLoop_nil]
  | succ m ih =>
    intro args hlen opts rem
    cases args with
    | nil => simp [parseLoop_nil]
    | cons arg rest =>
      have hrlen : rest.length ≤ m := by
        simp at hlen
        omega
      obtain ⟨h1, h2, h3⟩ := handleOption_rem_decomp opts rem arg rest
      rw [parseLoop_cons, parseLoop_cons]
      simp only [h1, h2, h3]
      by_cases hneg : (handleOption opts [] (arg :: rest)).1 < 0
      · simp [if_pos hneg]
      · simp only [if_neg hneg]
        have hdlen : (rest.drop
            (handleOption opts [] (arg :: rest)).1.toNat).length ≤ m := by
          simp [List.length_drop]
          omega
        rw [ih _ hdlen _ (rem ++ (handleOption opts [] (arg :: rest)).2.2),
          ih _ hdlen _ (handleOption opts [] (arg :: rest)).2.2]
        simp [List.append_assoc]

lemma parseLoop_rem_locality (args : List String) (opts : List Opt)
    (rem : List String) :
    (parseLoop args opts rem).2.2 = rem ++ (parseLoop args opts []).2.2 :=
  parseLoop_rem_locality_bound args.length args le_rfl opts rem

/-- C7: the remaining-argument list collects exactly the scanned tokens of
positional shape, in encounter order and verbatim: prior contents are
preserved and the additions do not depend on them; an empty tail adds
nothing; a positional head token is appended immediately, heads the
additions, and touches no option; an option-shaped head token adds nothing
to the list — in particular not the parameter token it consumes — and on
success the scan resumes only after the consumed tokens, which are skipped
outright; and the overall additions are a positional-shaped subsequence of
the scanned tokens. -/
theorem C7_remaining_args (opts : List Opt) (rem0 : List String) :
    (∀ args : List String,
        (parseLoop args opts rem0).2.2 = rem0 ++ (parseLoop args opts []).2.2)
    ∧ (parseLoop [] opts []).2.2 = []
    ∧ (∀ (arg : String) (rest : List String), isPositionalTok arg = true →
        handleOption opts rem0 (arg :: rest) = (0, opts, rem0 ++ [arg])
        ∧ (parseLoop (arg :: rest) opts []).2.2 =
            arg :: (parseLoop rest opts []).2.2)
    ∧ (∀ (arg : String) (rest : List String), isPositionalTok arg = false →
        (handleOption opts rem0 (arg :: rest)).2.2 = rem0
        ∧ ((handleOption opts rem0 (arg :: rest)).1 < 0 →
            (parseLoop (arg :: rest) opts []).2.2 = [])
        ∧ (0 ≤ (handleOption opts rem0 (arg :: rest)).1 →
            (parseLoop (arg :: rest) opts []).2.2 =
              (parseLoop
                (rest.drop (handleOption opts rem0 (arg :: rest)).1.toNat)
                (handleOption opts rem0 (arg :: rest)).2.1 []).2.2))
    ∧ (∀ args : List String,
        List.Sublist (parseLoop args opts []).2.2 args
        ∧ ∀ t ∈ (parseLoop args opts []).2.2, isPositionalTok t = true) := by
  refine ⟨fun args => parseLoop_rem_locality args opts rem0,
    by simp [parseLoop_nil], ?_, ?_, ?_⟩
  · intro arg rest hp
    refine ⟨handleOption_positional opts rem0 arg rest hp, ?_⟩
    have hho0 := handleOption_positional opts [] arg rest hp
    rw [parseLoop_cons]
    simp only [hho0, List.nil_append, Int.toNat_zero, List.drop_zero]
    norm_num
    rw [parseLoop_rem_locality rest opts [arg]]
    simp
  · intro arg rest hp
    obtain ⟨c2, cs, hd⟩ := not_positional_data arg hp
    obtain ⟨h1, h2, h3⟩ := handleOption_rem_decomp opts rem0 arg rest
    have hrem0 := handleOption_rem_option opts rem0 arg rest c2 cs hd
    have hremnil := handleOption_rem_option opts [] arg rest c2 cs hd
    refine ⟨hrem0, ?_, ?_⟩
    · intro hneg
      rw [h1] at hneg
      rw [parseLoop_cons]
      simp [if_pos hneg, hremnil]
    · intro hpos
      rw [h1] at hpos
      have hneg : ¬ (handleOption opts [] (arg :: rest)).1 < 0 := by omega
      rw [parseLoop_cons]
      simp only [if_neg hneg, hremnil, h1, h2]
  · intro args
    obtain ⟨added, ha, hs, hpos⟩ :=
      parseLoop_remaining_bound args.length args le_rfl opts []
    rw [List.nil_append] at ha
    rw [ha]
    exact ⟨hs, hpos⟩

/-- C7 witness: a positional token is appended verbatim; the option token
`-S` with its consumed parameter `x` adds nothing and resumes after `x`. -/
theorem C7_remaining_args_witness :
    (handleOption [OptionString 'S' "string" "d" false none] ["-"] ["file"] =
      (0, [OptionString 'S' "string" "d" false none], ["-", "file"]))
    ∧ ((handleOption [OptionString 'S' "string" "d" false none] ["-"]
          [String.mk ['-', 'S'], "x"]).2.2 = ["-"])
    ∧ ((parseLoop [String.mk ['-', 'S'], "x"]
          [OptionString 'S' "string" "d" false none] []).2.2 =
        (parseLoop
          (["x"].drop
            (handleOption [OptionString 'S' "string" "d" false none] ["-"]
              [String.mk ['-', 'S'], "x"]).1.toNat)
          (handleOption [OptionString 'S' "string" "d" false none] ["-"]
            [String.mk ['-', 'S'], "x"]).2.1 []).2.2) := by
  have h := C7_remaining_args [OptionString 'S' "string" "d" false none] ["-"]
  exact ⟨(h.2.2.1 "file" [] (by decide)).1,
    (h.2.2.2.1 (String.mk ['-', 'S']) ["x"] (by decide)).1,
    (h.2.2.2.1 (String.mk ['-', 'S']) ["x"] (by decide)).2.2 (by decide)⟩

/-- C2 witness: the characterisation evaluated at the literal `"-42"`. -/
theorem C2_isNumeric_int_characterisation_witness :
    isNumeric "-42" false = intLiteralRelaxed "-42".data :=
  C2_isNumeric_int_characterisation "-42"

/-- C8 witness: one readable and one unreadable PathExisting spec. -/
theorem C8_validatePathOptions_all_witness :
    validatePathOptions (fun p => p == some "good")
        [OptionPathExisting 'a' "apath" "d" false (some "good"),
         OptionPathExisting 'b' "bpath" "d" false (some "bad")] =
      [OptionPathExisting 'a' "apath" "d" false (some "good"),
       OptionPathExisting 'b' "bpath" "d" false (some "bad")].all
        (fun o => !(o.type == OptType.PathExisting) ||
          checkExistsReadable (fun p => p == some "good") o.pathString) :=
  (C8_validatePathOptions_all (fun p => p == some "good")
    [OptionPathExisting 'a' "apath" "d" false (some "good"),
     OptionPathExisting 'b' "bpath" "d" false (some "bad")]).1

end cli
